import Mathlib

/-!
# ClimateOne device-synchronization core: a shallow embedding

This file embeds the core of `app.py` (serial command channel, status-line
codec, device-state cache, history store, poller, port locator) as executable
Lean definitions and proves the specification claims about them.

Conventions of the embedding:
* Python `float` values carried by the protocol are modelled by `PyFloat`
  (rationals plus `nan`/`inf`); no float arithmetic occurs in the embedded
  code, only parsing and transport of values.
* Wall-clock times (`time.time()`) are modelled as rationals.
* Python string operations are modelled as structural functions on the
  character list of the string, so that every definition evaluates inside
  the kernel.
* The serial transport is modelled by an explicit trace of loop iterations:
  the value of `time.time()` at the loop guard, the outcome of
  `ser.readline()` (a decoded line, or an I/O exception), and the value
  `time.time()` would return at the `latest["updated"]` stamp.
* Exceptions are modelled as an explicit `raised` outcome.
-/

/-- A Python `float` as carried by the protocol: NaN, signed infinity, or a
finite value (represented exactly as a rational, which is lossless for every
decimal literal the device can emit). -/
inductive PyFloat where
  | nan : PyFloat
  | inf : Bool → PyFloat
  | num : ℚ → PyFloat
deriving DecidableEq, Repr

/-- Numeric value of a list of decimal digit characters (most significant
first). -/
def natOfDigits (cs : List Char) : Nat :=
  cs.foldl (fun n c => 10 * n + (c.toNat - '0'.toNat)) 0

/-- Strip one optional leading sign, returning whether it was `-` and the
remaining characters. -/
def splitSign : List Char → Bool × List Char
  | '+' :: cs => (false, cs)
  | '-' :: cs => (true, cs)
  | cs => (false, cs)

/-- Split a character list at the first occurrence of a character satisfying
`p`: returns the prefix and, when a split character was found, the suffix
after it. -/
def splitFirst (p : Char → Bool) : List Char → List Char × Option (List Char)
  | [] => ([], none)
  | c :: cs =>
    if p c then ([], some cs)
    else
      let (a, b) := splitFirst p cs
      (c :: a, b)

/-- Python `s.strip()` (ASCII whitespace, which covers every character the
serial protocol can carry here). -/
def pyStrip (cs : List Char) : List Char :=
  ((cs.dropWhile Char.isWhitespace).reverse.dropWhile Char.isWhitespace).reverse

/-- Python `s.split(sep)` for a one-character separator: splits at every
occurrence, keeping empty segments (`"".split(",") == [""]`). -/
def pySplitChar (sep : Char) : List Char → List (List Char)
  | [] => [[]]
  | c :: cs =>
    let r := pySplitChar sep cs
    if c = sep then [] :: r
    else
      match r with
      | [] => [[c]]
      | h :: t => (c :: h) :: t

/-- Parse the unsigned mantissa of a float literal (`d+`, `d+.`, `d+.d+` or
`.d+`) into its digit value and its count of fractional digits. -/
def parseMantissa (cs : List Char) : Option (Nat × Nat) :=
  let (ipart, rest) := splitFirst (· = '.') cs
  match rest with
  | none =>
    if ipart ≠ [] ∧ ipart.all Char.isDigit then some (natOfDigits ipart, 0) else none
  | some fpart =>
    if ipart.all Char.isDigit ∧ fpart.all Char.isDigit ∧ (ipart ≠ [] ∨ fpart ≠ []) then
      some (natOfDigits (ipart ++ fpart), fpart.length)
    else none

/-- The rational value `±(n / 10^k) · 10^e` of a parsed float literal,
assembled with `mkRat` over plain integer arithmetic (the arithmetic
operations on `ℚ` itself are irreducible and would block evaluation). -/
def ratOfParts (neg : Bool) (n k : Nat) (e : Int) : ℚ :=
  mkRat ((if neg then -1 else 1) * (n * 10 ^ e.toNat : Nat) : Int)
    (10 ^ k * 10 ^ (-e).toNat)

/-- Parse the signed integer exponent of a float literal. -/
def parseExpDigits (cs : List Char) : Option Int :=
  let (neg, ds) := splitSign cs
  if ds ≠ [] ∧ ds.all Char.isDigit then
    some ((if neg then -1 else 1) * (natOfDigits ds : Int))
  else none

/-- Python's `float(s)` on the characters of an already-stripped string:
optional sign, then `nan` / `inf` / `infinity` (case-insensitive) or a
decimal literal with an optional exponent. (Digit-group underscores, a
rarely used literal form, are not modelled.) Returns `none` where `float()`
raises `ValueError`. -/
def pyFloat? (cs0 : List Char) : Option PyFloat :=
  match cs0 with
  | [] => none
  | cs =>
    let (neg, rest) := splitSign cs
    let low := rest.map Char.toLower
    if low = "nan".data then some .nan
    else if low = "inf".data ∨ low = "infinity".data then some (.inf neg)
    else
      let (mant, expPart) := splitFirst (fun c => c = 'e' ∨ c = 'E') rest
      match parseMantissa mant with
      | none => none
      | some nk =>
        match expPart with
        | none => some (.num (ratOfParts neg nk.1 nk.2 0))
        | some ds =>
          match parseExpDigits ds with
          | none => none
          | some e => some (.num (ratOfParts neg nk.1 nk.2 e))

/-- Python's `int(s)` on the characters of an already-stripped string:
optional sign and a nonempty run of decimal digits. Returns `none` where
`int()` raises `ValueError`. -/
def pyInt? (cs : List Char) : Option Int :=
  let (neg, ds) := splitSign cs
  if ds ≠ [] ∧ ds.all Char.isDigit then
    some ((if neg then -1 else 1) * (natOfDigits ds : Int))
  else none

/-- Python's `p.split("=", 1)` as used with tuple unpacking `k, v = ...`:
the text before the first `=` and everything after it, or `none` (the
`ValueError` of unpacking a 1-element list) when `p` has no `=`. -/
def pySplitEq1 (p : List Char) : Option (List Char × List Char) :=
  match splitFirst (· = '=') p with
  | (_, none) => none
  | (k, some v) => some (k, v)

/-- The typed record produced by decoding one status line: each recognized
key is present (`some`) or absent (`none`), mirroring the Python dict `out`
built by `parse_status`. -/
structure StatusUpdate where
  temp : Option PyFloat := none
  hum : Option PyFloat := none
  temp_on : Option PyFloat := none
  temp_off : Option PyFloat := none
  hum_on : Option PyFloat := none
  hum_off : Option PyFloat := none
  heater : Option Int := none
  fan : Option Int := none
  mode : Option String := none
deriving DecidableEq, Repr

/-- Python truthiness of the `out` dict: nonempty iff some key was stored. -/
def StatusUpdate.nonEmpty (st : StatusUpdate) : Bool :=
  st.temp.isSome || st.hum.isSome || st.temp_on.isSome || st.temp_off.isSome ||
  st.hum_on.isSome || st.hum_off.isSome || st.heater.isSome || st.fan.isSome ||
  st.mode.isSome

/-- The float-valued status keys of `parse_status`. -/
def floatKeys : List (List Char) :=
  ["temp".data, "hum".data, "temp_on".data, "temp_off".data, "hum_on".data, "hum_off".data]

/-- Decoding of a float-valued pair in `parse_status`:
`float("nan" if v.lower()=="nan" else v)`. -/
def decodeFloatValue (v : List Char) : Option PyFloat :=
  if v.map Char.toLower = "nan".data then some .nan else pyFloat? v

/-- Store a decoded float value under its key (`out[k] = float(...)`). -/
def StatusUpdate.setFloat (st : StatusUpdate) (k : List Char) (f : PyFloat) : StatusUpdate :=
  if k = "temp".data then { st with temp := some f }
  else if k = "hum".data then { st with hum := some f }
  else if k = "temp_on".data then { st with temp_on := some f }
  else if k = "temp_off".data then { st with temp_off := some f }
  else if k = "hum_on".data then { st with hum_on := some f }
  else { st with hum_off := some f }

/-- One iteration of the `for p in parts` loop of `parse_status`: split the
pair at its first `=`, strip both sides, then store the value according to
the key's class. A missing `=`, or a value rejected by `float()`/`int()`,
is the exception path (`none`); a well-formed pair with an unrecognized key
falls through every branch and leaves `out` unchanged. -/
def parsePair (out : StatusUpdate) (p : List Char) : Option StatusUpdate :=
  match pySplitEq1 p with
  | none => none
  | some kv =>
    let k := pyStrip kv.1
    let v := pyStrip kv.2
    if k ∈ floatKeys then
      (decodeFloatValue v).map fun f => out.setFloat k f
    else if k = "heater".data then
      (pyInt? v).map fun n => { out with heater := some n }
    else if k = "fan".data then
      (pyInt? v).map fun n => { out with fan := some n }
    else if k = "mode".data then
      some { out with mode := some ⟨v.map Char.toUpper⟩ }
    else
      some out

/-- The `for p in parts` loop of `parse_status`, threading `out`; the first
failing pair aborts the whole decode (the `except` clause returns `None`). -/
def parseParts (out : StatusUpdate) : List (List Char) → Option StatusUpdate
  | [] => some out
  | p :: ps =>
    match parsePair out p with
    | none => none
    | some out2 => parseParts out2 ps

/-- `parse_status(line)` of `app.py`: split on commas, drop the leading
`STATUS` token, and fold the `k=v` pairs; any exception yields `None`. -/
def parse_status (line : String) : Option StatusUpdate :=
  parseParts {} ((pySplitChar ',' line.data).drop 1)

/-- The `latest` cache dict of `app.py`, typed (keys `temp`,`hum` start as
`None`; the others carry their initial values). -/
structure DeviceState where
  temp : Option PyFloat
  hum : Option PyFloat
  heater : Int
  fan : Int
  mode : String
  temp_on : PyFloat
  temp_off : PyFloat
  hum_on : PyFloat
  hum_off : PyFloat
  updated : Option ℚ
  port : Option String
  raw : String
deriving DecidableEq, Repr

/-- The initial value of `latest` (lines 20–25 of `app.py`). -/
def latestInit : DeviceState where
  temp := none
  hum := none
  heater := 0
  fan := 0
  mode := "AUTO"
  temp_on := .num 20
  temp_off := .num 24
  hum_on := .num 60
  hum_off := .num 60
  updated := none
  port := none
  raw := ""

/-- `latest.update(st)`: every key present in `st` overwrites the cache
entry; absent keys keep their previous value. `updated`, `port` and `raw`
are never keys of a decoded status, so they are untouched. -/
def DeviceState.merge (d : DeviceState) (st : StatusUpdate) : DeviceState where
  temp := match st.temp with | some v => some v | none => d.temp
  hum := match st.hum with | some v => some v | none => d.hum
  heater := st.heater.getD d.heater
  fan := st.fan.getD d.fan
  mode := st.mode.getD d.mode
  temp_on := st.temp_on.getD d.temp_on
  temp_off := st.temp_off.getD d.temp_off
  hum_on := st.hum_on.getD d.hum_on
  hum_off := st.hum_off.getD d.hum_off
  updated := d.updated
  port := d.port
  raw := d.raw

/-- A Transport Session: the open `serial.Serial` handle and its port. The
code never calls `close()`, so `isOpen` records the handle's own flag. -/
structure Session where
  port : String
  isOpen : Bool
deriving DecidableEq, Repr

/-- Outcome of one `ser.readline()` call: a decoded-and-received line
(possibly empty on timeout), or a serial I/O exception. -/
inductive ReadEv where
  | line : String → ReadEv
  | err : ReadEv
deriving DecidableEq, Repr

/-- One iteration of the read loop of `send_cmd`: the value of
`time.time()` at the `while` guard, the `readline` outcome, and the value
`time.time()` would return at the `latest["updated"]` stamp. -/
structure Iter where
  tCheck : ℚ
  ev : ReadEv
  tNow : ℚ
deriving DecidableEq, Repr

/-- The environment of one `send_cmd` call: what `find_port` would resolve
if `open_serial` runs (`none` = no port), whether the
`reset_input_buffer`/`write`/`flush` sequence succeeds, the time sampled
into `t0`, and the trace of read-loop iterations. -/
structure Env where
  openPort : Option String
  writeOk : Bool
  t0 : ℚ
  iters : List Iter
deriving DecidableEq, Repr

/-- How a `send_cmd` call ends: `return None`, `return latest`, or an
uncaught exception propagating out of the function. -/
inductive SendRes where
  | retNone : SendRes
  | retSnapshot : SendRes
  | raised : SendRes
deriving DecidableEq, Repr

/-- The guard `ser is None or not ser.is_open` of `send_cmd`. -/
def needsOpen : Option Session → Bool
  | none => true
  | some s => !s.isOpen

/-- The loop guard `time.time() - t0 < 2.0` of `send_cmd`, written without
`Rat.sub` (which is irreducible and would block evaluation);
`withinBudget_iff` proves it is exactly `t - t0 < 2`. -/
def withinBudget (t0 t : ℚ) : Bool :=
  decide (t < mkRat (t0.num + 2 * (t0.den : Int)) t0.den)

/-- The `while time.time() - t0 < 2.0` read loop of `send_cmd`
(lines 55–66): empty and non-`STATUS,` lines continue the loop; the first
`STATUS,`-prefixed line records `latest["raw"]`, merges and stamps
`updated` only when the decode yields a nonempty dict, and returns
`latest` in every case; a read exception propagates; an exhausted trace or
an expired guard is the fall-through `return None`. -/
def send_cmd_loop (t0 : ℚ) (latest : DeviceState) : List Iter → SendRes × DeviceState
  | [] => (.retNone, latest)
  | it :: rest =>
    if withinBudget t0 it.tCheck then
      match it.ev with
      | .err => (.raised, latest)
      | .line s0 =>
        let s : String := ⟨pyStrip s0.data⟩
        if s.data = [] then send_cmd_loop t0 latest rest
        else if "STATUS,".data.isPrefixOf s.data then
          let l1 := { latest with raw := s }
          match parse_status s with
          | some st =>
            if st.nonEmpty then
              (.retSnapshot, { l1.merge st with updated := some it.tNow })
            else (.retSnapshot, l1)
          | none => (.retSnapshot, l1)
        else send_cmd_loop t0 latest rest
    else (.retNone, latest)

/-- `send_cmd(cmd)` of `app.py` (lines 44–66), as a function of the
environment, the current `ser`, and the current `latest`. The command text
only goes out on the wire, so it does not appear as an argument. If no
session is open, `open_serial` resolves a port (setting `ser` and
`latest["port"]`) or the call returns `None`; then the
clear/write/flush sequence runs (an I/O error there, with no
`try`/`except` in `send_cmd`, propagates as an exception with `ser`
untouched), and the read loop finishes the exchange. -/
def send_cmd (env : Env) (ser0 : Option Session) (latest0 : DeviceState) :
    SendRes × Option Session × DeviceState :=
  if needsOpen ser0 then
    match env.openPort with
    | none => (.retNone, ser0, latest0)
    | some port =>
      let s : Session := ⟨port, true⟩
      let l1 := { latest0 with port := some port }
      if env.writeOk then
        let r := send_cmd_loop env.t0 l1 env.iters
        (r.1, some s, r.2)
      else (.raised, some s, l1)
  else
    if env.writeOk then
      let r := send_cmd_loop env.t0 latest0 env.iters
      (r.1, ser0, r.2)
    else (.raised, ser0, latest0)

/-- A row of the `readings` table (all value columns nullable). -/
structure Reading where
  ts : Int
  temp : Option PyFloat
  hum : Option PyFloat
  heater : Option Int
  fan : Option Int
deriving DecidableEq, Repr

/-- Python `int(x)` on a float value: truncation toward zero. -/
def pyTrunc (q : ℚ) : Int := q.num.tdiv q.den

/-- `db_insert(st)` of `app.py`: append one row
`(int(st["updated"]), st.get("temp"), st.get("hum"), st.get("heater"),
st.get("fan"))`. When `updated` is `None`, `int(None)` raises, modelled
as `none` (callers only reach this with a truthy `updated`). -/
def db_insert (st : DeviceState) (db : List Reading) : Option (List Reading) :=
  st.updated.map fun t =>
    db ++ [⟨pyTrunc t, st.temp, st.hum, some st.heater, some st.fan⟩]

/-- Ordering of table rows by timestamp. -/
def tsLE (a b : Reading) : Prop := a.ts ≤ b.ts

instance : DecidableRel tsLE := fun a b => inferInstanceAs (Decidable (a.ts ≤ b.ts))

instance : IsTotal Reading tsLE := ⟨fun a b => le_total a.ts b.ts⟩

instance : IsTrans Reading tsLE := ⟨fun _ _ _ hab hbc => le_trans hab hbc⟩

/-- `db_get_since(since_epoch)` of `app.py`:
`SELECT ts,temp,hum,heater,fan FROM readings WHERE ts>=? ORDER BY ts ASC`,
modelled over the table contents as filtering and a stable
comparison sort on `ts` (one valid result of the unstable SQL `ORDER BY`). -/
def db_get_since (since : Int) (db : List Reading) : List Reading :=
  (db.filter fun r => since ≤ r.ts).insertionSort tsLE

/-- Python truthiness of `st.get("updated")`: `None` and `0.0` are falsy. -/
def truthyUpdated : Option ℚ → Bool
  | none => false
  | some t => t ≠ 0

/-- One cycle of `poller()` (lines 117–125, minus the sleep): run
`send_cmd("GET")`; if it returned the snapshot (`st` is the always-nonempty
`latest` dict, hence truthy) and `st.get("updated")` is truthy, insert one
row; any exception is swallowed by the `try`/`except`. -/
def poller_cycle (env : Env) (ser0 : Option Session) (latest0 : DeviceState)
    (db : List Reading) : Option Session × DeviceState × List Reading :=
  let r := send_cmd env ser0 latest0
  match r.1 with
  | .raised => (r.2.1, r.2.2, db)
  | .retNone => (r.2.1, r.2.2, db)
  | .retSnapshot =>
    if truthyUpdated r.2.2.updated then
      match db_insert r.2.2 db with
      | some db2 => (r.2.1, r.2.2, db2)
      | none => (r.2.1, r.2.2, db)
    else (r.2.1, r.2.2, db)

/-- The fixed candidate patterns of `app.py`. -/
def PORT_GLOBS : List String := ["/dev/ttyACM*", "/dev/ttyUSB*"]

/-- The `for pat in PORT_GLOBS` loop of `find_port`: `glob.glob` is the
abstract filesystem oracle `fs`; `sorted(...)` is a comparison sort under
the string order, and a nonempty match list returns its first element. -/
def find_port_from (fs : String → List String) : List String → Option String
  | [] => none
  | pat :: pats =>
    match (fs pat).insertionSort (· ≤ ·) with
    | [] => find_port_from fs pats
    | m :: _ => some m

/-- `find_port()` of `app.py` (lines 27–32). -/
def find_port (fs : String → List String) : Option String :=
  find_port_from fs PORT_GLOBS

/-- The mutations lines 60–64 of `app.py` apply to `latest` inside an
exchange whose status line decodes to a nonempty dict, as the three
separate statements they are: record `raw`, merge the decoded fields,
stamp `updated`. -/
def exchangeWriteSteps (line : String) (st : StatusUpdate) (tNow : ℚ) :
    List (DeviceState → DeviceState) :=
  [fun d => { d with raw := line },
   fun d => d.merge st,
   fun d => { d with updated := some tNow }]

/-- The states a reader that does not hold `LOCK` — such as `api_status`,
which reads `latest` at line 323 without acquiring it — can observe while
the writer applies `steps`: before any step, between any two consecutive
steps, and after the last. -/
def observableStates (d0 : DeviceState) : List (DeviceState → DeviceState) → List DeviceState
  | [] => [d0]
  | f :: fs => d0 :: observableStates (f d0) fs

/-- How the read loop of `send_cmd` ends on a given trace: the deadline
expires (or the trace is exhausted) with only empty or non-`STATUS` lines
seen; a read raises; or a `STATUS,`-prefixed stripped line `s` is reached,
with `tNow` the stamp time of that iteration. -/
inductive LoopOut where
  | deadline : LoopOut
  | ioerr : LoopOut
  | status : String → ℚ → LoopOut
deriving DecidableEq, Repr

/-- Classify a read-loop trace by how the loop ends (mirrors the control
flow of `send_cmd_loop` without the state threading). -/
def loopOut (t0 : ℚ) : List Iter → LoopOut
  | [] => .deadline
  | it :: rest =>
    if withinBudget t0 it.tCheck then
      match it.ev with
      | .err => .ioerr
      | .line s0 =>
        let s : String := ⟨pyStrip s0.data⟩
        if s.data = [] then loopOut t0 rest
        else if "STATUS,".data.isPrefixOf s.data then .status s it.tNow
        else loopOut t0 rest
    else .deadline

/-- Whether a received status line decodes to a nonempty (truthy) dict,
i.e. whether `send_cmd` merges and stamps. -/
def decodesNonempty (s : String) : Bool :=
  match parse_status s with
  | some st => st.nonEmpty
  | none => false

/-- A `k=v` pair that takes the exception path of `parse_status`: no `=`
separator, a value rejected by `float()` under a float-valued key, or a
value rejected by `int()` under `heater`/`fan`. -/
def pairUnparseable (p : List Char) : Bool :=
  match pySplitEq1 p with
  | none => true
  | some kv =>
    let k := pyStrip kv.1
    let v := pyStrip kv.2
    (decide (k ∈ floatKeys) && (decodeFloatValue v).isNone) ||
    ((decide (k = "heater".data) || decide (k = "fan".data)) && (pyInt? v).isNone)

/-- A pair with an `=` separator whose (stripped) key is none of the
recognized field names. -/
def wellFormedUnknownPair (p : List Char) : Bool :=
  match pySplitEq1 p with
  | none => false
  | some kv =>
    decide (pyStrip kv.1 ∉ floatKeys ∧ pyStrip kv.1 ≠ "heater".data ∧
            pyStrip kv.1 ≠ "fan".data ∧ pyStrip kv.1 ≠ "mode".data)

/-- The decode of `STATUS,temp=23.45,hum=51.20`. -/
def stC5 : StatusUpdate := { temp := some (.num (mkRat 2345 100)), hum := some (.num (mkRat 5120 100)) }

/-- A concrete three-row table. -/
def dbW : List Reading :=
  [⟨12, none, none, none, none⟩, ⟨5, none, none, none, none⟩,
   ⟨11, none, none, none, none⟩]

/-- The first pattern, in candidate order, that has any match. This
definition follows the spec's wording, to be compared with the
source-derived `find_port`. -/
def firstWithMatch (fs : String → List String) : List String → Option String
  | [] => none
  | pat :: pats => if fs pat = [] then firstWithMatch fs pats else some pat

/-- A concrete filesystem oracle with two ACM devices and no USB device. -/
def fsW : String → List String := fun pat =>
  if pat = "/dev/ttyACM*" then ["/dev/ttyACM1", "/dev/ttyACM0"] else []

/-- An open session on `/dev/ttyACM0`. -/
def sessACM0 : Session := ⟨"/dev/ttyACM0", true⟩

/-- One in-deadline read that yields a `STATUS,`-prefixed line whose decode
fails. -/
def envC1 : Env := ⟨some "/dev/ttyACM0", true, 100, [⟨101, .line "STATUS,temp=abc", 101⟩]⟩

/-- A non-status line inside the budget, then a status line after the
deadline. -/
def envC1W : Env :=
  ⟨some "/dev/ttyACM0", true, 100, [⟨100, .line "hello", 100⟩, ⟨103, .line "STATUS,temp=1", 103⟩]⟩

/-- One decodable status line inside the budget. -/
def envC1S : Env := ⟨some "/dev/ttyACM0", true, 100, [⟨101, .line "STATUS,temp=1.5", 101⟩]⟩

/-- The clear/write/flush sequence raises. -/
def envC2 : Env := ⟨some "/dev/ttyACM0", false, 100, []⟩

/-- A read exception after one ignored line. -/
def envC2R : Env :=
  ⟨some "/dev/ttyACM0", true, 100, [⟨100, .line "ok", 100⟩, ⟨101, .err, 101⟩]⟩

/-- One in-deadline status line with an unparseable pair. -/
def envC3 : Env := ⟨some "/dev/ttyACM0", true, 100, [⟨101, .line "STATUS,temp=abc", 101⟩]⟩

/-- Whether the exchange's read loop ends on a status line that decodes to
a nonempty dict — exactly when `send_cmd` merges and stamps. -/
def exchangeDecodes (t0 : ℚ) (iters : List Iter) : Bool :=
  match loopOut t0 iters with
  | .status s _ => decodesNonempty s
  | _ => false

/-- A cache whose last exchange stamped time 100 and read 20 degrees. -/
def d0C4 : DeviceState :=
  { latestInit with temp := some (.num (mkRat 20 1)), updated := some 100 }

/-- A decoded status carrying only a new temperature of 21 degrees. -/
def stC4 : StatusUpdate := { temp := some (.num (mkRat 21 1)) }

/-- A poll exchange whose only line is an undecodable status line, against
a cache stamped long ago (time 100) in an exchange starting at 195. -/
def envC9 : Env := ⟨some "/dev/ttyACM0", true, 195, [⟨196, .line "STATUS,temp=abc", 196⟩]⟩

/-- A cache whose previous exchange stamped `updated = 100`. -/
def latestC9 : DeviceState := { latestInit with updated := some 100 }

/-- A poll exchange that decodes a status line at time 101. -/
def envC9W : Env :=
  ⟨some "/dev/ttyACM0", true, 100, [⟨101, .line "STATUS,temp=21.5,hum=40", 101⟩]⟩

/-- The subtraction-free guard agrees with the source's `t - t0 < 2`. -/
theorem withinBudget_iff (t0 t : ℚ) : withinBudget t0 t = true ↔ t - t0 < 2 := by
  have hden : ((t0.den : ℚ)) ≠ 0 := Nat.cast_ne_zero.mpr t0.den_nz
  unfold withinBudget
  rw [decide_eq_true_iff, Rat.mkRat_eq_div, sub_lt_iff_lt_add]
  have key : (((t0.num + 2 * (t0.den : Int)) : Int) : ℚ) / ((t0.den : Nat) : ℚ) = 2 + t0 := by
    push_cast
    rw [add_div, Rat.num_div_den, mul_div_assoc, div_self hden, mul_one, add_comm]
  rw [key]

/-- Master characterization of the read loop: its result and its effect on
`latest` are determined by `loopOut`. -/
theorem send_cmd_loop_eq (t0 : ℚ) (l : DeviceState) (iters : List Iter) :
    send_cmd_loop t0 l iters =
      match loopOut t0 iters with
      | .deadline => (.retNone, l)
      | .ioerr => (.raised, l)
      | .status s tNow =>
        match parse_status s with
        | some st =>
          if st.nonEmpty then
            (.retSnapshot, { ({ l with raw := s }).merge st with updated := some tNow })
          else (.retSnapshot, { l with raw := s })
        | none => (.retSnapshot, { l with raw := s }) := by
  induction iters with
  | nil => rfl
  | cons it rest ih =>
    simp only [send_cmd_loop, loopOut]
    split
    · cases it.ev with
      | err => rfl
      | line s0 =>
        simp only []
        split
        · exact ih
        · split
          · rfl
          · exact ih
    · rfl

/-- When a session is already open and the write sequence succeeds,
`send_cmd` is exactly the read loop, with `ser` untouched. -/
theorem send_cmd_open (env : Env) (ser0 : Option Session) (l0 : DeviceState)
    (h1 : needsOpen ser0 = false) (h2 : env.writeOk = true) :
    send_cmd env ser0 l0 =
      ((send_cmd_loop env.t0 l0 env.iters).1, ser0, (send_cmd_loop env.t0 l0 env.iters).2) := by
  simp [send_cmd, h1, h2]

/-- Whether a pair aborts the decode depends only on the pair, never on the
fields accumulated so far. -/
theorem parsePair_isNone_iff (out : StatusUpdate) (p : List Char) :
    parsePair out p = none ↔ pairUnparseable p = true := by
  unfold parsePair pairUnparseable
  cases hs : pySplitEq1 p with
  | none => simp
  | some kv =>
    by_cases hk : pyStrip kv.1 ∈ floatKeys
    · have h1 : pyStrip kv.1 ≠ "heater".data := by
        intro h; rw [h] at hk; exact absurd hk (by decide)
      have h2 : pyStrip kv.1 ≠ "fan".data := by
        intro h; rw [h] at hk; exact absurd hk (by decide)
      simp [hk, h1, h2, Option.map_eq_none', Option.isNone_iff_eq_none]
    · by_cases hh : pyStrip kv.1 = "heater".data
      · simp +decide [hk, hh, Option.map_eq_none', Option.isNone_iff_eq_none]
      · by_cases hf : pyStrip kv.1 = "fan".data
        · simp +decide [hk, hh, hf, Option.map_eq_none', Option.isNone_iff_eq_none]
        · by_cases hm : pyStrip kv.1 = "mode".data
          · simp +decide [hk, hh, hf, hm]
          · simp [hk, hh, hf, hm]

/-- One bad pair anywhere in the list aborts the whole fold. -/
theorem parseParts_none_of_bad (l : List (List Char)) :
    ∀ out, (∃ p ∈ l, pairUnparseable p = true) → parseParts out l = none := by
  induction l with
  | nil =>
    rintro out ⟨p, hp, _⟩
    cases hp
  | cons q qs ih =>
    rintro out ⟨p, hp, hbad⟩
    rcases List.mem_cons.mp hp with rfl | hmem
    · simp [parseParts, (parsePair_isNone_iff out p).mpr hbad]
    · cases hq : parsePair out q with
      | none => simp [parseParts, hq]
      | some out2 => simp [parseParts, hq, ih out2 ⟨p, hmem, hbad⟩]

/-- C8: for every status line in which at least one `k=v` pair is
unparseable (missing separator, non-numeric value for a float field,
non-integer value for `heater`/`fan`), `parse_status` returns `None` for
the entire line — no partially decoded field set is produced. -/
theorem C8_theorem (line : String)
    (h : ∃ p ∈ (pySplitChar ',' line.data).drop 1, pairUnparseable p = true) :
    parse_status line = none :=
  parseParts_none_of_bad _ {} h

theorem C8_witness :
    (∃ p ∈ (pySplitChar ',' "STATUS,temp=abc,hum=1".data).drop 1,
        pairUnparseable p = true) ∧
    parse_status "STATUS,temp=abc,hum=1" = none :=
  ⟨⟨"temp=abc".data, by decide, by decide⟩,
   C8_theorem "STATUS,temp=abc,hum=1" ⟨"temp=abc".data, by decide, by decide⟩⟩

/-- An unknown-key pair with a separator falls through every branch of the
pair loop, leaving the accumulated fields untouched. -/
theorem parsePair_unknown (out : StatusUpdate) (p : List Char)
    (h : wellFormedUnknownPair p = true) : parsePair out p = some out := by
  unfold wellFormedUnknownPair at h
  unfold parsePair
  cases hs : pySplitEq1 p with
  | none => rw [hs] at h; cases h
  | some kv =>
    rw [hs] at h
    simp only [decide_eq_true_eq] at h
    obtain ⟨h1, h2, h3, h4⟩ := h
    simp [h1, h2, h3, h4]

/-- C10: a well-formed `k=v` pair whose key is not one of the recognized
field names is silently dropped: deleting it from the pair list does not
change the decode — it neither aborts the decode nor appears in the
decoded result. -/
theorem C10_theorem (out : StatusUpdate) (l1 l2 : List (List Char)) (p : List Char)
    (h : wellFormedUnknownPair p = true) :
    parseParts out (l1 ++ p :: l2) = parseParts out (l1 ++ l2) := by
  induction l1 generalizing out with
  | nil => simp [parseParts, parsePair_unknown out p h]
  | cons q qs ih =>
    simp only [List.cons_append, parseParts]
    cases parsePair out q with
    | none => rfl
    | some out2 => exact ih out2

theorem C10_witness :
    wellFormedUnknownPair "foo=bar".data = true ∧
    parseParts {} ["temp=1.5".data, "foo=bar".data, "hum=2".data] =
      parseParts {} ["temp=1.5".data, "hum=2".data] :=
  ⟨by decide,
   C10_theorem {} ["temp=1.5".data] ["hum=2".data] "foo=bar".data (by decide)⟩

/-- C5: merging a decoded status line that contains only the `temp` and
`hum` keys leaves `heater`, `fan`, `mode` and the four threshold fields of
the cache equal to their prior values. -/
theorem C5_theorem (d : DeviceState) (line : String) (st : StatusUpdate)
    (_hdec : parse_status line = some st)
    (_ht : st.temp.isSome = true) (_hh : st.hum.isSome = true)
    (h1 : st.temp_on = none) (h2 : st.temp_off = none) (h3 : st.hum_on = none)
    (h4 : st.hum_off = none) (h5 : st.heater = none) (h6 : st.fan = none)
    (h7 : st.mode = none) :
    (d.merge st).heater = d.heater ∧ (d.merge st).fan = d.fan ∧
    (d.merge st).mode = d.mode ∧ (d.merge st).temp_on = d.temp_on ∧
    (d.merge st).temp_off = d.temp_off ∧ (d.merge st).hum_on = d.hum_on ∧
    (d.merge st).hum_off = d.hum_off := by
  simp [DeviceState.merge, h1, h2, h3, h4, h5, h6, h7]

theorem C5_witness :
    parse_status "STATUS,temp=23.45,hum=51.20" = some stC5 ∧
    (latestInit.merge stC5).heater = latestInit.heater ∧
    (latestInit.merge stC5).fan = latestInit.fan ∧
    (latestInit.merge stC5).mode = latestInit.mode ∧
    (latestInit.merge stC5).temp_on = latestInit.temp_on ∧
    (latestInit.merge stC5).temp_off = latestInit.temp_off ∧
    (latestInit.merge stC5).hum_on = latestInit.hum_on ∧
    (latestInit.merge stC5).hum_off = latestInit.hum_off := by
  refine ⟨by decide, ?_⟩
  exact C5_theorem latestInit "STATUS,temp=23.45,hum=51.20" stC5 (by decide)
    (by decide) (by decide) rfl rfl rfl rfl rfl rfl rfl

/-- C6: the history query returns exactly the rows with `ts ≥ since`
(a permutation of the filtered table), in non-decreasing timestamp order,
excluding every row with `ts < since`. -/
theorem C6_theorem (since : Int) (db : List Reading) :
    List.Perm (db_get_since since db) (db.filter (fun r => since ≤ r.ts)) ∧
    List.Sorted tsLE (db_get_since since db) ∧
    ∀ r ∈ db_get_since since db, since ≤ r.ts := by
  refine ⟨List.perm_insertionSort tsLE _, List.sorted_insertionSort tsLE _, ?_⟩
  intro r hr
  have hmem : r ∈ db.filter (fun r => since ≤ r.ts) :=
    (List.perm_insertionSort tsLE _).mem_iff.mp hr
  simpa using (List.mem_filter.mp hmem).2

theorem C6_witness :
    (⟨12, none, none, none, none⟩ : Reading) ∈ db_get_since 10 dbW ∧
    (10 : Int) ≤ (12 : Int) :=
  ⟨by decide, (C6_theorem 10 dbW).2.2 ⟨12, none, none, none, none⟩ (by decide)⟩

/-- `find_port` returns no port exactly when every pattern matches
nothing. -/
theorem find_port_from_none_iff (fs : String → List String) (pats : List String) :
    find_port_from fs pats = none ↔ ∀ pat ∈ pats, fs pat = [] := by
  induction pats with
  | nil => simp [find_port_from]
  | cons pat pats ih =>
    unfold find_port_from
    cases hsort : (fs pat).insertionSort (· ≤ ·) with
    | nil =>
      have hperm := List.perm_insertionSort (α := String) (· ≤ ·) (fs pat)
      rw [hsort] at hperm
      have hnil : fs pat = [] := (List.Perm.nil_eq hperm).symm
      simp [hnil, ih]
    | cons m ms =>
      have hne : fs pat ≠ [] := by
        intro h
        rw [h] at hsort
        simp [List.insertionSort] at hsort
      simp [hne]

/-- When `pat` is the first pattern with a match, `find_port` returns a
member of its matches that is `≤` every match (the lexicographically
smallest, under the code-point string order). -/
theorem find_port_from_min (fs : String → List String) (pats : List String) (pat : String)
    (h : firstWithMatch fs pats = some pat) :
    ∃ p, find_port_from fs pats = some p ∧ p ∈ fs pat ∧ ∀ q ∈ fs pat, p ≤ q := by
  induction pats with
  | nil => cases h
  | cons a pats ih =>
    unfold firstWithMatch at h
    by_cases ha : fs a = []
    · rw [if_pos ha] at h
      have hrec := ih h
      unfold find_port_from
      rw [ha]
      simpa [List.insertionSort] using hrec
    · rw [if_neg ha] at h
      have hap : a = pat := Option.some.inj h
      subst hap
      unfold find_port_from
      cases hsort : (fs a).insertionSort (· ≤ ·) with
      | nil =>
        exfalso
        have hperm := List.perm_insertionSort (α := String) (· ≤ ·) (fs a)
        rw [hsort] at hperm
        exact ha (List.Perm.nil_eq hperm).symm
      | cons m ms =>
        have hperm := List.perm_insertionSort (α := String) (· ≤ ·) (fs a)
        rw [hsort] at hperm
        have hsorted := List.sorted_insertionSort (α := String) (· ≤ ·) (fs a)
        rw [hsort] at hsorted
        refine ⟨m, rfl, hperm.mem_iff.mp (List.mem_cons_self m ms), ?_⟩
        intro q hq
        rcases List.mem_cons.mp (hperm.mem_iff.mpr hq) with rfl | hq'
        · exact le_refl q
        · exact (List.sorted_cons.mp hsorted).1 q hq'

/-- C7: `find_port` returns the lexicographically smallest path matching
the first pattern (in the fixed candidate order) that has any match, and
no port exactly when no pattern matches anything. -/
theorem C7_theorem (fs : String → List String) :
    (find_port fs = none ↔ ∀ pat ∈ PORT_GLOBS, fs pat = []) ∧
    (∀ pat, firstWithMatch fs PORT_GLOBS = some pat →
      ∃ p, find_port fs = some p ∧ p ∈ fs pat ∧ ∀ q ∈ fs pat, p ≤ q) :=
  ⟨find_port_from_none_iff fs PORT_GLOBS,
   fun pat h => find_port_from_min fs PORT_GLOBS pat h⟩

theorem C7_witness :
    firstWithMatch fsW PORT_GLOBS = some "/dev/ttyACM*" ∧
    ∃ p, find_port fsW = some p ∧ p ∈ fsW "/dev/ttyACM*" ∧
      ∀ q ∈ fsW "/dev/ttyACM*", p ≤ q :=
  ⟨by decide, (C7_theorem fsW).2 "/dev/ttyACM*" (by decide)⟩

/-- C1 (counterexample): `send_cmd` does NOT continue the read loop past a
status line that fails to decode — the first `STATUS,`-prefixed line
returns the success snapshot even though no decodable status line ever
arrived (here the lone line within the 2-second budget fails to decode,
and the call still returns `latest` rather than `Failure(NoResponse)`). -/
theorem C1_counterexample :
    parse_status "STATUS,temp=abc" = none ∧
    (send_cmd envC1 (some sessACM0) latestInit).1 = .retSnapshot :=
  ⟨by decide, by decide⟩

/-- C1 (amended): the read loop continues past empty reads and
non-`STATUS,` lines only. If the deadline elapses (or the trace ends) with
no `STATUS,`-prefixed line received, the call returns `None`
(`Failure(NoResponse)`) with the cache untouched and the Session left in
place, open for reuse; as soon as any `STATUS,`-prefixed line arrives
within the 2-second deadline — decodable or not — the call returns the
snapshot. -/
theorem C1_amended (env : Env) (ser0 : Option Session) (latest0 : DeviceState)
    (hopen : needsOpen ser0 = false) (hw : env.writeOk = true) :
    (loopOut env.t0 env.iters = .deadline →
      send_cmd env ser0 latest0 = (.retNone, ser0, latest0)) ∧
    (∀ s tNow, loopOut env.t0 env.iters = .status s tNow →
      (send_cmd env ser0 latest0).1 = .retSnapshot ∧
      (send_cmd env ser0 latest0).2.1 = ser0) := by
  rw [send_cmd_open env ser0 latest0 hopen hw]
  constructor
  · intro h
    rw [send_cmd_loop_eq, h]
  · intro s tNow h
    refine ⟨?_, rfl⟩
    rw [send_cmd_loop_eq, h]
    cases hp : parse_status s with
    | none => simp [hp]
    | some st => cases hb : st.nonEmpty <;> simp [hp, hb]

theorem C1_witness :
    needsOpen (some sessACM0) = false ∧ envC1W.writeOk = true ∧
    loopOut envC1W.t0 envC1W.iters = .deadline ∧
    send_cmd envC1W (some sessACM0) latestInit = (.retNone, some sessACM0, latestInit) ∧
    loopOut envC1S.t0 envC1S.iters = .status "STATUS,temp=1.5" 101 ∧
    (send_cmd envC1S (some sessACM0) latestInit).1 = .retSnapshot :=
  ⟨by decide, by decide, by decide,
   (C1_amended envC1W (some sessACM0) latestInit (by decide) (by decide)).1 (by decide),
   by decide,
   ((C1_amended envC1S (some sessACM0) latestInit (by decide) (by decide)).2
     "STATUS,temp=1.5" 101 (by decide)).1⟩

/-- C2 (counterexample): an I/O error during the exchange (here at the
buffer-clear/write step) is NOT converted into a typed failure return and
the Session is NOT discarded: `send_cmd` has no exception handler, so the
exception propagates (`raised`) and `ser` still holds the same open
session afterwards. -/
theorem C2_counterexample :
    envC2.writeOk = false ∧
    send_cmd envC2 (some sessACM0) latestInit = (.raised, some sessACM0, latestInit) :=
  ⟨by decide, by decide⟩

/-- C2 (amended): on any I/O error after access is acquired (buffer clear,
write, flush, or a read), `send_cmd` lets the exception propagate to its
immediate caller (the poller and the startup kick swallow it; Flask
handlers surface it as a server error), leaves the cache unchanged, and
retains the Session — `ser` keeps the same still-open handle, so the next
call reuses it instead of reopening the transport. -/
theorem C2_amended (env : Env) (ser0 : Option Session) (latest0 : DeviceState)
    (hopen : needsOpen ser0 = false)
    (herr : env.writeOk = false ∨ loopOut env.t0 env.iters = .ioerr) :
    send_cmd env ser0 latest0 = (.raised, ser0, latest0) := by
  cases hw : env.writeOk with
  | true =>
    rcases herr with hwf | hio
    · rw [hw] at hwf; cases hwf
    · rw [send_cmd_open env ser0 latest0 hopen hw, send_cmd_loop_eq, hio]
  | false => simp [send_cmd, hopen, hw]

theorem C2_witness :
    needsOpen (some sessACM0) = false ∧
    loopOut envC2R.t0 envC2R.iters = .ioerr ∧
    send_cmd envC2R (some sessACM0) latestInit = (.raised, some sessACM0, latestInit) :=
  ⟨by decide, by decide,
   C2_amended envC2R (some sessACM0) latestInit (by decide) (Or.inr (by decide))⟩

/-- C3 (counterexample): a `STATUS,`-prefixed line with an unparseable
pair fails to decode, yet a field of DeviceState IS mutated: `lastRawLine`
(`latest["raw"]`) is assigned before the decode is attempted, so decode
failure does not imply "no mutation". -/
theorem C3_counterexample :
    parse_status "STATUS,temp=abc" = none ∧
    latestInit.raw = "" ∧
    ((send_cmd envC3 (some sessACM0) latestInit).2.2).raw = "STATUS,temp=abc" :=
  ⟨by decide, rfl, by decide⟩

/-- C3 (amended): decode failure implies no merge: when no status line of
the exchange decodes to a nonempty dict, every typed field of DeviceState
— `temp`, `hum`, `heater`, `fan`, `mode`, the four thresholds, `updated`
and `port` — is left unchanged by the read loop; `lastRawLine` (`raw`),
however, records any `STATUS,`-prefixed line before its decode is
attempted, so it can change even on decode failure. -/
theorem C3_amended (t0 : ℚ) (latest : DeviceState) (iters : List Iter)
    (h : exchangeDecodes t0 iters = false) :
    ((send_cmd_loop t0 latest iters).2.temp = latest.temp ∧
     (send_cmd_loop t0 latest iters).2.hum = latest.hum ∧
     (send_cmd_loop t0 latest iters).2.heater = latest.heater ∧
     (send_cmd_loop t0 latest iters).2.fan = latest.fan ∧
     (send_cmd_loop t0 latest iters).2.mode = latest.mode) ∧
    ((send_cmd_loop t0 latest iters).2.temp_on = latest.temp_on ∧
     (send_cmd_loop t0 latest iters).2.temp_off = latest.temp_off ∧
     (send_cmd_loop t0 latest iters).2.hum_on = latest.hum_on ∧
     (send_cmd_loop t0 latest iters).2.hum_off = latest.hum_off ∧
     (send_cmd_loop t0 latest iters).2.updated = latest.updated ∧
     (send_cmd_loop t0 latest iters).2.port = latest.port) := by
  unfold exchangeDecodes at h
  rw [send_cmd_loop_eq]
  cases hl : loopOut t0 iters with
  | deadline => simp
  | ioerr => simp
  | status s tNow =>
    have hd : decodesNonempty s = false := by rw [hl] at h; exact h
    unfold decodesNonempty at hd
    cases hp : parse_status s with
    | none => simp [hp]
    | some st =>
      have hb : st.nonEmpty = false := by rw [hp] at hd; exact hd
      simp [hp, hb]

theorem C3_witness :
    exchangeDecodes envC3.t0 envC3.iters = false ∧
    (send_cmd_loop envC3.t0 latestInit envC3.iters).2.temp = latestInit.temp ∧
    (send_cmd_loop envC3.t0 latestInit envC3.iters).2.updated = latestInit.updated :=
  ⟨by decide,
   ((C3_amended envC3.t0 latestInit envC3.iters (by decide)).1).1,
   (C3_amended envC3.t0 latestInit envC3.iters (by decide)).2.2.2.2.2.1⟩

/-- C4 (counterexample): `api_status` reads `latest` without acquiring
`LOCK`, and the merge and the `updated` stamp are separate dict
operations; a reader scheduled between them observes the exchange's new
`temp` (21) paired with the OLD `lastUpdatedAt` (100) — the atomicity
invariant does not hold. -/
theorem C4_counterexample :
    ∃ d ∈ observableStates d0C4 (exchangeWriteSteps "STATUS,temp=21" stC4 200),
      d.temp = some (.num (mkRat 21 1)) ∧ d.updated = some (100 : ℚ) := by
  decide

/-- C4 (amended): because readers of `latest` do not take `LOCK`, the
merge of decoded fields and the stamping of `lastUpdatedAt` are NOT
observed atomically: the state after the merge step and before the stamp
step carries the new fields with the previous `updated`. What does hold is
that the final observable state of the exchange carries the recorded raw
line, the merged fields and the new stamp together. -/
theorem C4_amended (d0 : DeviceState) (line : String) (st : StatusUpdate) (tNow : ℚ) :
    (observableStates d0 (exchangeWriteSteps line st tNow)).getLast? =
      some { ({ d0 with raw := line }).merge st with updated := some tNow } ∧
    (observableStates d0 (exchangeWriteSteps line st tNow))[2]? =
      some (({ d0 with raw := line }).merge st) ∧
    (({ d0 with raw := line }).merge st).updated = d0.updated :=
  ⟨rfl, rfl, rfl⟩

/-- C9 (counterexample): the poll cycle appends a Reading whose timestamp
is NOT the integer second of the exchange's completion time: the exchange
(starting at t0 = 195) ends on an undecodable status line, `send_cmd`
returns the snapshot without restamping, the `st.get("updated")` guard
sees the stale previous stamp 100, and the appended row carries timestamp
100. -/
theorem C9_counterexample :
    parse_status "STATUS,temp=abc" = none ∧
    (poller_cycle envC9 (some sessACM0) latestC9 []).2.2 =
      [⟨100, none, none, some 0, some 0⟩] ∧
    envC9.t0 = 195 ∧ pyTrunc 100 = 100 :=
  ⟨by decide, by decide, rfl, by decide⟩

/-- C9 (amended): when `send_cmd("GET")` returns the snapshot and the
snapshot's `updated` is truthy, the poll cycle appends exactly one Reading
`(int(updated), temp, hum, heater, fan)` built from the snapshot — the
timestamp is the stamp of the most recent exchange that merged a decoded
status line, which is the current exchange's completion second exactly
when it decoded one. When `send_cmd` returns `None`, raises, or the
snapshot's `updated` is falsy, nothing is appended; the cycle itself never
propagates an exception. -/
theorem C9_amended (env : Env) (ser0 : Option Session) (latest0 : DeviceState)
    (db : List Reading) :
    (∀ t, (send_cmd env ser0 latest0).1 = .retSnapshot →
      (send_cmd env ser0 latest0).2.2.updated = some t →
      truthyUpdated (some t) = true →
      (poller_cycle env ser0 latest0 db).2.2 =
        db ++ [⟨pyTrunc t, (send_cmd env ser0 latest0).2.2.temp,
                (send_cmd env ser0 latest0).2.2.hum,
                some (send_cmd env ser0 latest0).2.2.heater,
                some (send_cmd env ser0 latest0).2.2.fan⟩]) ∧
    ((send_cmd env ser0 latest0).1 ≠ .retSnapshot →
      (poller_cycle env ser0 latest0 db).2.2 = db) ∧
    (truthyUpdated (send_cmd env ser0 latest0).2.2.updated = false →
      (poller_cycle env ser0 latest0 db).2.2 = db) := by
  rcases hsc : send_cmd env ser0 latest0 with ⟨res, ser1, l1⟩
  unfold poller_cycle
  rw [hsc]
  cases res with
  | raised =>
    refine ⟨fun t h1 _ _ => ?_, fun _ => rfl, fun _ => rfl⟩
    simp at h1
  | retNone =>
    refine ⟨fun t h1 _ _ => ?_, fun _ => rfl, fun _ => rfl⟩
    simp at h1
  | retSnapshot =>
    refine ⟨fun t _ h2 h3 => ?_, fun h => absurd rfl h, fun h => ?_⟩
    · simp only [] at h2
      simp [db_insert, h2, h3]
    · simp only [] at h
      simp [h]

theorem C9_witness :
    (send_cmd envC9W (some sessACM0) latestInit).1 = .retSnapshot ∧
    (send_cmd envC9W (some sessACM0) latestInit).2.2.updated = some (101 : ℚ) ∧
    truthyUpdated (some (101 : ℚ)) = true ∧
    (poller_cycle envC9W (some sessACM0) latestInit []).2.2 =
      [] ++ [⟨pyTrunc 101, (send_cmd envC9W (some sessACM0) latestInit).2.2.temp,
              (send_cmd envC9W (some sessACM0) latestInit).2.2.hum,
              some (send_cmd envC9W (some sessACM0) latestInit).2.2.heater,
              some (send_cmd envC9W (some sessACM0) latestInit).2.2.fan⟩] :=
  ⟨by decide, by decide, by decide,
   (C9_amended envC9W (some sessACM0) latestInit []).1 101 (by decide) (by decide) (by decide)⟩
